import Mathlib

/-!
Shallow embedding of the Dapp-Secure-Messages repository.

The authoritative ledger is the Solidity contract `EncryptedMessaging`
(`contracts/EncryptedMessaging.sol`): message-acceptance protocol with
anti-replay nonces, per-(sender,recipient) IV uniqueness, rate limiting and
optional ECDSA signature binding.  The client orchestrator is the React
frontend (`Send.tsx`, `Inbox.tsx`) with a hybrid AES-GCM / RSA-OAEP envelope
codec (`lib/crypto.ts`) and a localStorage-backed content store
(`lib/ipfs.ts`).

Machine integers (uint256/uint128/uint64, bytes32/bytes12, address) are
modelled as `Nat`; the counters of the contract (nonce, message id) only ever
grow by one per accepted message, far below their overflow bounds, so the
Solidity 0.8 overflow panics on them are unreachable and not modelled.  The
one subtraction of the contract, `nowTs - lastTs`, is modelled with an
explicit underflow branch mirroring the checked uint64 subtraction.
Strings (CIDs, URIs) are byte lists.  keccak256 and ecrecover are opaque
environment functions.  A Solidity `require` failure reverts the whole
transaction; this is embedded by `sendMessage` returning `Except`, with
`sendMessageTx` giving the transaction-level semantics (state kept on revert).
-/

namespace EncryptedMessaging

/-- Point update of a `Nat`-keyed mapping (Solidity `mapping(... => ...)` write). -/
def upd {α : Type} (m : Nat → α) (k : Nat) (v : α) : Nat → α :=
  fun j => if j = k then v else m j

/-- Point update of the triply-nested `usedIV` mapping. -/
def upd3 (m : Nat → Nat → Nat → Bool) (a b c : Nat) (v : Bool) :
    Nat → Nat → Nat → Bool :=
  fun x y z => if x = a ∧ y = b ∧ z = c then v else m x y z

/-- struct KeyRecord { bytes32 rsaPubKeySha256; string rsaPubKeyURI; uint64 updatedAt; } -/
structure KeyRecord where
  rsaPubKeySha256 : Nat
  rsaPubKeyURI : List Nat
  updatedAt : Nat
deriving Repr, DecidableEq

/-- struct MessageMeta — the on-chain committed record. -/
structure MessageMeta where
  id : Nat
  sender : Nat
  recipient : Nat
  timestamp : Nat
  sha256Hash : Nat
  iv : Nat
  contentCidHash : Nat
  keyCidHash : Nat
  nonce : Nat
  sigR : Nat
  sigS : Nat
  sigV : Nat
deriving Repr, DecidableEq

/-- The distinct `require` failures of `sendMessage` (revert reasons), plus the
checked-arithmetic panic of the uint64 subtraction `nowTs - lastTs`. -/
inductive SendError where
  | invalidInput
  | arithUnderflow
  | rateLimited
  | duplicateIV
  | badNonce
  | badSignature
deriving Repr, DecidableEq

/-- Events emitted by the contract. -/
inductive Event where
  | messageSent (id sender recipient timestamp sha256Hash iv contentCidHash
      keyCidHash nonce : Nat)
  | keyRegistered (owner rsaPubKeySha256 : Nat) (rsaPubKeyURI : List Nat)
      (updatedAt : Nat)
  | minIntervalUpdated (newValue : Nat)
deriving Repr, DecidableEq

/-- The contract storage of `EncryptedMessaging`. -/
structure ContractState where
  nextMessageId : Nat
  messages : Nat → Option MessageMeta
  inboxIndex : Nat → List Nat
  outboxIndex : Nat → List Nat
  lastNonce : Nat → Nat
  minIntervalSeconds : Nat
  lastSentAt : Nat → Nat
  usedIV : Nat → Nat → Nat → Bool
  keyRegistry : Nat → KeyRecord

/-- Storage right after deployment: `nextMessageId = 1`,
`minIntervalSeconds = 10`, every mapping at its zero default. -/
def initialState : ContractState where
  nextMessageId := 1
  messages := fun _ => none
  inboxIndex := fun _ => []
  outboxIndex := fun _ => []
  lastNonce := fun _ => 0
  minIntervalSeconds := 10
  lastSentAt := fun _ => 0
  usedIV := fun _ _ _ => false
  keyRegistry := fun _ => ⟨0, [], 0⟩

/-- Chain primitives the contract calls: keccak256 over byte strings and
ECDSA public-key recovery `ecrecover(hash, v, r, s)`. -/
structure Env where
  keccak : List Nat → Nat
  ecrecover : Nat → Nat → Nat → Nat → Nat

/-- Big-endian byte string of width `w` for a value `n` (abi.encodePacked of a
fixed-width word). -/
def bytesBE (w n : Nat) : List Nat :=
  (List.range w).reverse.map (fun i => n / 256 ^ i % 256)

/-- The ASCII bytes of the literal prepended inside the commitment. -/
def msgTag : List Nat := [77, 83, 71, 58]

/-- The ASCII bytes of the EIP-191 personal-sign header for a 32-byte payload. -/
def ethSignedTag : List Nat :=
  [25, 69, 116, 104, 101, 114, 101, 117, 109, 32, 83, 105, 103, 110, 101, 100,
   32, 77, 101, 115, 115, 97, 103, 101, 58, 10, 51, 50]

/-- abi.encodePacked(bytes1(0x19), bytes1(0x45), "MSG:", sender, recipient,
nowTs, sha256Hash, iv, contentCidHash, keyCidHash, nonce): address is 20
bytes, uint64 is 8, bytes32 is 32, bytes12 is 12, uint128 is 16. -/
def commitData (sender recipient nowTs sha256Hash iv contentCidHash keyCidHash
    nonce : Nat) : List Nat :=
  [25, 69] ++ msgTag ++ bytesBE 20 sender ++ bytesBE 20 recipient ++
    bytesBE 8 nowTs ++ bytesBE 32 sha256Hash ++ bytesBE 12 iv ++
    bytesBE 32 contentCidHash ++ bytesBE 32 keyCidHash ++ bytesBE 16 nonce

/-- keccak256(abi.encodePacked(ethereum signed-message header, commit)). -/
def ethMsgHash (env : Env) (commit : Nat) : Nat :=
  env.keccak (ethSignedTag ++ bytesBE 32 commit)

/-- The success tail of `sendMessage`: allocate the id, persist the
MessageMeta, append to the inbox and outbox indices, emit `MessageSent`. -/
def commitMessage (s : ContractState) (sender recipient nowTs sha256Hash iv
    contentCidHash keyCidHash nonce sigV sigR sigS : Nat) :
    ContractState × Nat × List Event :=
  let id := s.nextMessageId
  let meta : MessageMeta :=
    ⟨id, sender, recipient, nowTs, sha256Hash, iv, contentCidHash, keyCidHash,
     nonce, sigR, sigS, sigV⟩
  ({ s with
      nextMessageId := id + 1
      messages := upd s.messages id (some meta)
      inboxIndex := upd s.inboxIndex recipient (s.inboxIndex recipient ++ [id])
      outboxIndex := upd s.outboxIndex sender (s.outboxIndex sender ++ [id]) },
   id,
   [Event.messageSent id sender recipient nowTs sha256Hash iv contentCidHash
      keyCidHash nonce])

/-- EncryptedMessaging.sendMessage, line by line.  `sender` is `msg.sender`,
`nowTs` is `uint64(block.timestamp)`; the checks run in source order and the
first failing `require` reverts with the corresponding error. -/
def sendMessage (env : Env) (s : ContractState) (sender recipient : Nat)
    (contentCID keyCID : List Nat) (sha256Hash iv nonce sigV sigR sigS
    nowTs : Nat) : Except SendError (ContractState × Nat × List Event) :=
  if recipient = 0 then .error .invalidInput
  else if sha256Hash = 0 then .error .invalidInput
  else if iv = 0 then .error .invalidInput
  else
    let lastTs := s.lastSentAt sender
    if nowTs < lastTs then .error .arithUnderflow
    else if nowTs - lastTs < s.minIntervalSeconds then .error .rateLimited
    else
      let s1 := { s with lastSentAt := upd s.lastSentAt sender nowTs }
      if s1.usedIV sender recipient iv then .error .duplicateIV
      else
        let s2 := { s1 with usedIV := upd3 s1.usedIV sender recipient iv true }
        if nonce ≠ s2.lastNonce sender + 1 then .error .badNonce
        else
          let s3 := { s2 with lastNonce := upd s2.lastNonce sender nonce }
          let contentCidHash := env.keccak contentCID
          let keyCidHash := env.keccak keyCID
          if sigV ≠ 0 ∨ sigR ≠ 0 ∨ sigS ≠ 0 then
            let commit := env.keccak (commitData sender recipient nowTs
              sha256Hash iv contentCidHash keyCidHash nonce)
            if env.ecrecover (ethMsgHash env commit) sigV sigR sigS ≠ sender
            then .error .badSignature
            else .ok (commitMessage s3 sender recipient nowTs sha256Hash iv
              contentCidHash keyCidHash nonce sigV sigR sigS)
          else .ok (commitMessage s3 sender recipient nowTs sha256Hash iv
            contentCidHash keyCidHash nonce sigV sigR sigS)

/-- Transaction-level semantics of a `sendMessage` call: a revert leaves the
storage exactly as it was and emits nothing. -/
def sendMessageTx (env : Env) (s : ContractState) (sender recipient : Nat)
    (contentCID keyCID : List Nat) (sha256Hash iv nonce sigV sigR sigS
    nowTs : Nat) : ContractState × Option Nat × List Event :=
  match sendMessage env s sender recipient contentCID keyCID sha256Hash iv
    nonce sigV sigR sigS nowTs with
  | .ok (s', id, evs) => (s', some id, evs)
  | .error _ => (s, none, [])

/-- EncryptedMessaging.registerRSAPublicKey: overwrites the caller's
KeyRecord with no validation and emits `KeyRegistered`. -/
def registerRSAPublicKey (s : ContractState) (caller rsaPubKeySha256 : Nat)
    (rsaPubKeyURI : List Nat) (nowTs : Nat) : ContractState × List Event :=
  let kr : KeyRecord := ⟨rsaPubKeySha256, rsaPubKeyURI, nowTs⟩
  ({ s with keyRegistry := upd s.keyRegistry caller kr },
   [Event.keyRegistered caller rsaPubKeySha256 rsaPubKeyURI nowTs])

/-- EncryptedMessaging.setMinInterval: no access control, no validation. -/
def setMinInterval (s : ContractState) (_caller newValue : Nat) :
    ContractState × List Event :=
  ({ s with minIntervalSeconds := newValue },
   [Event.minIntervalUpdated newValue])

/-- EncryptedMessaging.getInboxIds. -/
def getInboxIds (s : ContractState) (user : Nat) : List Nat :=
  s.inboxIndex user

/-- EncryptedMessaging.getOutboxIds. -/
def getOutboxIds (s : ContractState) (user : Nat) : List Nat :=
  s.outboxIndex user

/-- EncryptedMessaging.isIVUsed. -/
def isIVUsed (s : ContractState) (sender_ recipient_ iv_ : Nat) : Bool :=
  s.usedIV sender_ recipient_ iv_

/-- Bool-valued success test on a `sendMessage` outcome. -/
def isOkB (r : Except SendError (ContractState × Nat × List Event)) : Bool :=
  match r with
  | .ok _ => true
  | .error _ => false

/-- A concrete executable environment used for witnesses: a toy injective-ish
fold in place of keccak256 and an ecrecover that always answers address 0. -/
def testEnv : Env where
  keccak := fun l => l.foldl (fun a b => a * 256 + b + 1) 1
  ecrecover := fun _ _ _ _ => 0

/-- A length-measuring stand-in for keccak, giving deliberate hash
collisions between distinct locator strings. -/
def collisionEnv : Env where
  keccak := fun l => l.length
  ecrecover := fun _ _ _ _ => 0

/-- The contract state after one successful send (sender 1, recipient 2,
IV 9, nonce 1, at time 100) on the fresh contract. -/
def stateAfterFirstSend : ContractState :=
  (sendMessageTx testEnv initialState 1 2 [7] [8] 9 9 1 0 0 0 100).1

/-! ## Transaction traces

A trace of `sendMessage` transactions against the deployed contract, used to
state ledger-wide invariants (monotone ids, exact nonce sequences, terminal
IV marking). -/

/-- The argument tuple of one `sendMessage` transaction, together with the
caller (`msg.sender`) and the block timestamp it executes at. -/
structure TxArgs where
  sender : Nat
  recipient : Nat
  contentCID : List Nat
  keyCID : List Nat
  sha256Hash : Nat
  iv : Nat
  nonce : Nat
  sigV : Nat
  sigR : Nat
  sigS : Nat
  nowTs : Nat

/-- Resulting storage of one transaction (reverts keep the old storage). -/
def applyTx (env : Env) (s : ContractState) (tx : TxArgs) : ContractState :=
  (sendMessageTx env s tx.sender tx.recipient tx.contentCID tx.keyCID
    tx.sha256Hash tx.iv tx.nonce tx.sigV tx.sigR tx.sigS tx.nowTs).1

/-- Storage after a list of `sendMessage` transactions, oldest first. -/
def runTxs (env : Env) (s : ContractState) (txs : List TxArgs) :
    ContractState :=
  txs.foldl (applyTx env) s

/-- Nonce of a stored message slot (0 for an empty slot). -/
def optNonce : Option MessageMeta → Nat
  | some m => m.nonce
  | none => 0

/-- The nonces of a sender's accepted messages, in outbox (acceptance) order. -/
def nonceSeq (s : ContractState) (a : Nat) : List Nat :=
  (s.outboxIndex a).map (fun i => optNonce (s.messages i))

/-- Ledger invariant: every id in an outbox index was allocated before
`nextMessageId`, and each sender's outbox nonces are exactly
`1, 2, …, lastNonce[sender]`. -/
def LedgerInv (s : ContractState) : Prop :=
  (∀ a i, i ∈ s.outboxIndex a → i < s.nextMessageId) ∧
  (∀ a, nonceSeq s a = List.range' 1 (s.lastNonce a))

/-! ## Frontend: Send.tsx orchestrator -/

/-- The argument tuple `Send.tsx` passes to `contract.sendMessage`: the raw
content CID and raw key CID as returned by `ipfsPutJson`, the SHA-256 of the
ciphertext, the AES-GCM IV, `lastNonce(sender) + 1` read back from the
contract, and an all-zero signature (unsigned mode). -/
def onSendLedgerCall (s : ContractState) (sender recipient : Nat)
    (contentCID keyCID : List Nat) (sha256Hash iv : Nat) :
    Nat × List Nat × List Nat × Nat × Nat × Nat × Nat × Nat × Nat :=
  (recipient, contentCID, keyCID, sha256Hash, iv, s.lastNonce sender + 1,
   0, 0, 0)

/-- The on-chain submission `Send.tsx` performs (its ledger call applied to
the contract). -/
def onSendSubmit (env : Env) (s : ContractState) (sender recipient : Nat)
    (contentCID keyCID : List Nat) (sha256Hash iv nowTs : Nat) :
    Except SendError (ContractState × Nat × List Event) :=
  sendMessage env s sender recipient contentCID keyCID sha256Hash iv
    (s.lastNonce sender + 1) 0 0 0 nowTs

/-- Modelled from the spec: the locator argument the spec says the
orchestrator submits — the orchestrator itself computes
`contentLocatorCommitment = hash(contentLocator)` and the ledger takes only
this 32-byte commitment, never the locator string. -/
def specCommitmentArg (env : Env) (locator : List Nat) : List Nat :=
  bytesBE 32 (env.keccak locator)

/-! ## Frontend: Inbox.tsx receive path

`tryDecrypt` is embedded over an environment holding the browser-local state
(the `msgmap` correlation records, the imported private JWK) and the
outcomes of the fallible primitives it calls (`ipfsGetJson`, RSA-OAEP
unwrap, AES-GCM open).  A JavaScript exception inside the `try` block is an
`Except.error`; its message text is abstracted to a numeric code. -/

/-- The notes `tryDecrypt` can attach to an inbox item.  Each constructor
stands for one literal note string of Inbox.tsx; `caught e` is the
catch-all branch attaching the caught exception's message. -/
inductive DNote where
  | cidsUnknown
  | privKeyMissing
  | noEncryptedKey
  | integrityMismatch
  | caught (code : Nat)
deriving Repr, DecidableEq

/-- A fetched off-chain JSON document: `encrypted_key_b64` (decoded) when the
document is a key envelope, and the `iv` / `ciphertext_b64` fields (decoded)
when it is a content envelope. -/
structure IpfsDoc where
  encryptedKey : Option (List Nat)
  docIV : List Nat
  ciphertext : List Nat
deriving Repr, DecidableEq

/-- One inbox entry as Inbox.tsx builds it from a MessageSent log. -/
structure Item where
  id : Nat
  sender : Nat
  recipient : Nat
  timestamp : Nat
  sha256Hash : Nat
  iv : Nat
  contentCID : List Nat
  keyCID : List Nat
  plaintext : Option (List Nat)
  note : Option DNote
deriving Repr, DecidableEq

/-- The browser-side environment of `tryDecrypt`: localStorage lookups and
the (fallible) crypto / content-store primitives of `lib/crypto.ts` and
`lib/ipfs.ts`. -/
structure InboxEnv where
  msgmap : Nat → Option (List Nat × List Nat)
  privJwk : Option (List Nat)
  importPriv : List Nat → Except Nat Nat
  ipfsGet : List Nat → Except Nat IpfsDoc
  rsaOaepDecrypt : Nat → List Nat → Except Nat (List Nat)
  aesImportRaw : List Nat → Nat
  sha256Bytes : List Nat → Nat
  aesDecrypt : List Nat → Nat → List Nat → Except Nat (List Nat)

/-- The `try` block of Inbox.tryDecrypt, step by step in source order; the
first failing primitive throws (returns the error). -/
def tryDecryptBody (env : InboxEnv) (it : Item) (contentCID keyCID
    jwk : List Nat) : Except Nat Item :=
  match env.importPriv jwk with
  | .error e => .error e
  | .ok priv =>
    match env.ipfsGet keyCID with
    | .error e => .error e
    | .ok keyDoc =>
      match keyDoc.encryptedKey with
      | none => .ok { it with note := some .noEncryptedKey }
      | some encKey =>
        match env.rsaOaepDecrypt priv encKey with
        | .error e => .error e
        | .ok rawKey =>
          let aesKey := env.aesImportRaw rawKey
          match env.ipfsGet contentCID with
          | .error e => .error e
          | .ok contentDoc =>
            if env.sha256Bytes contentDoc.ciphertext ≠ it.sha256Hash then
              .ok { it with note := some .integrityMismatch }
            else
              match env.aesDecrypt contentDoc.ciphertext aesKey
                contentDoc.docIV with
              | .error e => .error e
              | .ok pt => .ok { it with plaintext := some pt }

/-- Inbox.tryDecrypt: resolve the local correlation record and the private
key, then run the try block, turning any thrown error into a note. -/
def tryDecrypt (env : InboxEnv) (it : Item) : Item :=
  match env.msgmap it.id with
  | none => { it with note := some .cidsUnknown }
  | some (contentCID, keyCID) =>
    let it2 := { it with contentCID := contentCID, keyCID := keyCID }
    match env.privJwk with
    | none => { it2 with note := some .privKeyMissing }
    | some jwk =>
      match tryDecryptBody env it2 contentCID keyCID jwk with
      | .ok r => r
      | .error e => { it2 with note := some (.caught e) }

/-- The enrichment loop of Inbox.useEffect:
`for (const it of base) enriched.push(await tryDecrypt(me, it))`. -/
def processInbox (env : InboxEnv) (items : List Item) : List Item :=
  items.map (tryDecrypt env)

/-- A concrete browser environment for witnesses: the correlation record is
known only for message id 1 (locators [3] and [4]), the private key is
imported, the key envelope at [4] wraps a key, the content envelope at [3]
has ciphertext [8], and the toy digest of a byte string is its byte sum. -/
def testInboxEnv : InboxEnv where
  msgmap := fun i => if i = 1 then some ([3], [4]) else none
  privJwk := some [5]
  importPriv := fun _ => .ok 7
  ipfsGet := fun c =>
    if c = [4] then .ok ⟨some [6], [1], [8]⟩ else .ok ⟨none, [1], [8]⟩
  rsaOaepDecrypt := fun _ _ => .ok [9]
  aesImportRaw := fun _ => 10
  sha256Bytes := fun l => l.foldl (fun a b => a + b) 0
  aesDecrypt := fun _ _ _ => .ok [42]

/-- An inbox entry whose on-chain digest (8) matches the fetched ciphertext. -/
def goodItem : Item := ⟨1, 1, 2, 50, 8, 9, [], [], none, none⟩

/-- An inbox entry whose on-chain digest (99) disagrees with the fetched
ciphertext's digest (8). -/
def tamperedItem : Item := ⟨1, 1, 2, 50, 99, 9, [], [], none, none⟩

/-- An inbox entry (id 2) with no local correlation record. -/
def unknownItem : Item := ⟨2, 1, 2, 50, 8, 9, [], [], none, none⟩

/-! ## Helper lemmas -/

theorem upd_same {α : Type} (m : Nat → α) (k : Nat) (v : α) : upd m k v k = v := by
  simp [upd]

theorem upd_other {α : Type} (m : Nat → α) (k : Nat) (v : α) {j : Nat}
    (h : j ≠ k) : upd m k v j = m j := by
  simp [upd, h]

theorem upd3_same (m : Nat → Nat → Nat → Bool) (a b c : Nat) (v : Bool) :
    upd3 m a b c v a b c = v := by
  simp [upd3]

set_option maxHeartbeats 2000000 in
/-- Anything a successful `sendMessage` call determines about its output:
the allocated id, the accepted nonce, and every storage field of the new
state. -/
theorem sendMessage_ok_shape {env : Env} {s : ContractState}
    {sender recipient : Nat} {contentCID keyCID : List Nat}
    {sha256Hash iv nonce sigV sigR sigS nowTs : Nat}
    {s' : ContractState} {id : Nat} {evs : List Event}
    (h : sendMessage env s sender recipient contentCID keyCID sha256Hash iv
      nonce sigV sigR sigS nowTs = .ok (s', id, evs)) :
    id = s.nextMessageId ∧
    nonce = s.lastNonce sender + 1 ∧
    s'.nextMessageId = s.nextMessageId + 1 ∧
    s'.messages = upd s.messages id (some ⟨id, sender, recipient, nowTs,
      sha256Hash, iv, env.keccak contentCID, env.keccak keyCID, nonce,
      sigR, sigS, sigV⟩) ∧
    s'.inboxIndex = upd s.inboxIndex recipient
      (s.inboxIndex recipient ++ [id]) ∧
    s'.outboxIndex = upd s.outboxIndex sender
      (s.outboxIndex sender ++ [id]) ∧
    s'.lastNonce = upd s.lastNonce sender nonce ∧
    s'.minIntervalSeconds = s.minIntervalSeconds ∧
    s'.lastSentAt = upd s.lastSentAt sender nowTs ∧
    s'.usedIV = upd3 s.usedIV sender recipient iv true ∧
    s'.keyRegistry = s.keyRegistry ∧
    evs = [Event.messageSent id sender recipient nowTs sha256Hash iv
      (env.keccak contentCID) (env.keccak keyCID) nonce] := by
  simp only [sendMessage] at h
  split_ifs at h with h1 h2 h3 h4 h5 h6 h7 h8 h9
  all_goals simp only [commitMessage, Except.ok.injEq, Prod.mk.injEq] at h
  all_goals obtain ⟨hs, hid, hev⟩ := h
  all_goals subst hs hid hev
  all_goals simp only [ne_eq, not_not] at h7
  all_goals exact ⟨rfl, h7, rfl, rfl, rfl, rfl, rfl, rfl, rfl, rfl, rfl, rfl⟩

theorem range'_snoc (a n : Nat) :
    List.range' a (n + 1) = List.range' a n ++ [a + n] := by
  induction n generalizing a with
  | zero => simp
  | succ n ih =>
    have e : a + 1 + n = a + (n + 1) := by omega
    calc List.range' a (n + 2) = a :: List.range' (a + 1) (n + 1) := rfl
      _ = a :: (List.range' (a + 1) n ++ [a + 1 + n]) := by rw [ih]
      _ = (a :: List.range' (a + 1) n) ++ [a + (n + 1)] := by rw [e]; rfl
      _ = List.range' a (n + 1) ++ [a + (n + 1)] := rfl

theorem ledgerInv_initial : LedgerInv initialState := by
  constructor
  · intro a i hi
    simp [initialState] at hi
  · intro a
    rfl

theorem ledgerInv_applyTx (env : Env) (s : ContractState) (tx : TxArgs)
    (h : LedgerInv s) : LedgerInv (applyTx env s tx) := by
  unfold applyTx sendMessageTx
  cases hsm : sendMessage env s tx.sender tx.recipient tx.contentCID tx.keyCID
    tx.sha256Hash tx.iv tx.nonce tx.sigV tx.sigR tx.sigS tx.nowTs with
  | error e => simpa using h
  | ok out =>
    rcases out with ⟨s', id, evs⟩
    obtain ⟨hid, hnon, hnext, hmsg, _hin, hout, hln, _hmin, _hls, _hiv, _hkr,
      _hev⟩ := sendMessage_ok_shape hsm
    subst hid
    simp only
    constructor
    · intro a i hi
      rw [hout] at hi
      rw [hnext]
      by_cases ha : a = tx.sender
      · subst ha
        rw [upd_same] at hi
        rcases List.mem_append.mp hi with h' | h'
        · exact Nat.lt_succ_of_lt (h.1 _ _ h')
        · simp at h'
          omega
      · rw [upd_other _ _ _ ha] at hi
        exact Nat.lt_succ_of_lt (h.1 _ _ hi)
    · intro a
      have hseq := h.2 a
      simp only [nonceSeq] at hseq ⊢
      rw [hout, hln]
      by_cases ha : a = tx.sender
      · subst ha
        rw [upd_same, upd_same, List.map_append]
        have hmape : (s.outboxIndex tx.sender).map
              (fun i => optNonce (s'.messages i))
            = (s.outboxIndex tx.sender).map
              (fun i => optNonce (s.messages i)) := by
          apply List.map_congr_left
          intro i hi
          rw [hmsg, upd_other _ _ _ (Nat.ne_of_lt (h.1 _ _ hi))]
        rw [hmape, hseq]
        have hlast : optNonce (s'.messages s.nextMessageId)
            = s.lastNonce tx.sender + 1 := by
          rw [hmsg, upd_same, ← hnon]
          rfl
        simp only [List.map_cons, List.map_nil, hlast]
        rw [hnon, range'_snoc]
        have e : 1 + s.lastNonce tx.sender = s.lastNonce tx.sender + 1 := by
          omega
        rw [e]
      · rw [upd_other _ _ _ ha, upd_other _ _ _ ha]
        have hmape : (s.outboxIndex a).map (fun i => optNonce (s'.messages i))
            = (s.outboxIndex a).map (fun i => optNonce (s.messages i)) := by
          apply List.map_congr_left
          intro i hi
          rw [hmsg, upd_other _ _ _ (Nat.ne_of_lt (h.1 _ _ hi))]
        rw [hmape, hseq]

theorem ledgerInv_runTxs (env : Env) (txs : List TxArgs) :
    LedgerInv (runTxs env initialState txs) := by
  suffices h : ∀ s, LedgerInv s → LedgerInv (runTxs env s txs) from
    h _ ledgerInv_initial
  induction txs with
  | nil => exact fun s hs => hs
  | cons t ts ih => exact fun s hs => ih _ (ledgerInv_applyTx env s t hs)

/-! ## Claim theorems -/

/-- C1: For every sender, the nonces of accepted messages form the exact
sequence 1, 2, 3, … with no gaps or repeats: after any trace of
transactions the sender's outbox nonces are exactly
`1 … lastNonce[sender]`; the counter starts at 0; a submission passing all
earlier checks whose nonce differs from `lastNonce[sender] + 1` fails with
BadNonce; and on acceptance the counter becomes the accepted nonce. -/
theorem nonce_sequence_exact (env : Env) (txs : List TxArgs) (a : Nat)
    (s : ContractState) (sender recipient : Nat)
    (contentCID keyCID : List Nat) (sha256Hash iv nonce sigV sigR sigS
    nowTs : Nat)
    (hrec : recipient ≠ 0) (hsha : sha256Hash ≠ 0) (hiv : iv ≠ 0)
    (hts : s.lastSentAt sender ≤ nowTs)
    (hrate : s.minIntervalSeconds ≤ nowTs - s.lastSentAt sender)
    (hfresh : s.usedIV sender recipient iv = false) :
    nonceSeq (runTxs env initialState txs) a
      = List.range' 1 ((runTxs env initialState txs).lastNonce a) ∧
    initialState.lastNonce a = 0 ∧
    (nonce ≠ s.lastNonce sender + 1 →
      sendMessage env s sender recipient contentCID keyCID sha256Hash iv
        nonce sigV sigR sigS nowTs = .error .badNonce) ∧
    (∀ s' id evs, sendMessage env s sender recipient contentCID keyCID
        sha256Hash iv nonce sigV sigR sigS nowTs = .ok (s', id, evs) →
      nonce = s.lastNonce sender + 1 ∧ s'.lastNonce sender = nonce) := by
  refine ⟨(ledgerInv_runTxs env txs).2 a, rfl, ?_, ?_⟩
  · intro hne
    have h4 : ¬(nowTs < s.lastSentAt sender) := Nat.not_lt.mpr hts
    have h5 : ¬(nowTs - s.lastSentAt sender < s.minIntervalSeconds) :=
      Nat.not_lt.mpr hrate
    simp [sendMessage, hrec, hsha, hiv, h4, h5, hfresh, hne]
  · intro s' id evs hok
    obtain ⟨_, hnon, _, _, _, _, hln, _⟩ := sendMessage_ok_shape hok
    refine ⟨hnon, ?_⟩
    rw [hln, upd_same]

/-- C1 witness: the trace-level invariant at the empty trace, and a concrete
BadNonce rejection of nonce `lastNonce + 2` on the fresh contract. -/
theorem nonce_sequence_exact_witness :
    nonceSeq (runTxs testEnv initialState []) 5
      = List.range' 1 ((runTxs testEnv initialState []).lastNonce 5) ∧
    sendMessage testEnv initialState 1 2 [7] [8] 9 9 2 0 0 0 50
      = .error .badNonce := by
  have h := nonce_sequence_exact testEnv [] 5 initialState 1 2 [7] [8] 9 9 2
    0 0 0 50 (by decide) (by decide) (by decide) (by decide) (by decide)
    (by decide)
  exact ⟨h.1, h.2.2.1 (by decide)⟩

/-- Marking a triple used preserves every triple already marked used. -/
theorem upd3_true (m : Nat → Nat → Nat → Bool) (x y z a b c : Nat)
    (h : m a b c = true) : upd3 m x y z true a b c = true := by
  unfold upd3
  split_ifs with hc
  · rfl
  · exact h

/-- C2 counterexample: after a successful submission of the triple
(1, 2, 9), a later submission reusing it fails with RateLimited — not
DuplicateIV — when it comes within minInterval of the first. -/
theorem duplicate_iv_claim_counterexample :
    isOkB (sendMessage testEnv initialState 1 2 [7] [8] 9 9 1 0 0 0 100)
      = true ∧
    isIVUsed stateAfterFirstSend 1 2 9 = true ∧
    sendMessage testEnv stateAfterFirstSend 1 2 [7] [8] 9 9 2 0 0 0 105
      = .error .rateLimited ∧
    SendError.rateLimited ≠ SendError.duplicateIV := by
  refine ⟨by decide, by decide, rfl, by decide⟩

/-- C2 amended: for every (sender, recipient, iv) triple at most one message
is ever accepted — a successful submission marks the triple used
(`isIVUsed` answers true), the marking survives every later transaction, a
used triple can never be accepted again, and a resubmission of a used
triple that passes the structural and rate-limit checks fails with
DuplicateIV regardless of its nonce and signature. -/
theorem duplicate_iv_terminal (env : Env) (s : ContractState)
    (sender recipient : Nat) (contentCID keyCID : List Nat)
    (sha256Hash iv nonce sigV sigR sigS nowTs : Nat) :
    (∀ s' id evs, sendMessage env s sender recipient contentCID keyCID
        sha256Hash iv nonce sigV sigR sigS nowTs = .ok (s', id, evs) →
      isIVUsed s' sender recipient iv = true) ∧
    (∀ tx a b c, s.usedIV a b c = true →
      (applyTx env s tx).usedIV a b c = true) ∧
    (s.usedIV sender recipient iv = true →
      isOkB (sendMessage env s sender recipient contentCID keyCID sha256Hash
        iv nonce sigV sigR sigS nowTs) = false) ∧
    (s.usedIV sender recipient iv = true → recipient ≠ 0 → sha256Hash ≠ 0 →
      iv ≠ 0 → s.lastSentAt sender ≤ nowTs →
      s.minIntervalSeconds ≤ nowTs - s.lastSentAt sender →
      sendMessage env s sender recipient contentCID keyCID sha256Hash iv
        nonce sigV sigR sigS nowTs = .error .duplicateIV) := by
  refine ⟨?_, ?_, ?_, ?_⟩
  · intro s' id evs hok
    obtain ⟨_, _, _, _, _, _, _, _, _, hiv, _, _⟩ := sendMessage_ok_shape hok
    unfold isIVUsed
    rw [hiv, upd3_same]
  · intro tx a b c hu
    unfold applyTx sendMessageTx
    cases hsm : sendMessage env s tx.sender tx.recipient tx.contentCID
      tx.keyCID tx.sha256Hash tx.iv tx.nonce tx.sigV tx.sigR tx.sigS
      tx.nowTs with
    | error e => simpa using hu
    | ok out =>
      rcases out with ⟨s', id, evs⟩
      obtain ⟨_, _, _, _, _, _, _, _, _, hiv, _, _⟩ :=
        sendMessage_ok_shape hsm
      simp only
      rw [hiv]
      exact upd3_true _ _ _ _ _ _ _ hu
  · intro hu
    simp only [sendMessage, hu]
    split_ifs <;> rfl
  · intro hu hrec hsha hiv hts hrate
    have h4 : ¬(nowTs < s.lastSentAt sender) := Nat.not_lt.mpr hts
    have h5 : ¬(nowTs - s.lastSentAt sender < s.minIntervalSeconds) :=
      Nat.not_lt.mpr hrate
    simp [sendMessage, hrec, hsha, hiv, h4, h5, hu]

/-- C2 witness: a used triple is rejected with DuplicateIV after the
rate-limit window has passed, for an arbitrary nonce (here 7). -/
theorem duplicate_iv_terminal_witness :
    (applyTx testEnv stateAfterFirstSend
      ⟨1, 3, [7], [8], 9, 4, 2, 0, 0, 0, 115⟩).usedIV 1 2 9 = true ∧
    sendMessage testEnv stateAfterFirstSend 1 2 [7] [8] 9 9 7 0 0 0 115
      = .error .duplicateIV := by
  have h := duplicate_iv_terminal testEnv stateAfterFirstSend 1 2 [7] [8]
    9 9 7 0 0 0 115
  exact ⟨h.2.1 ⟨1, 3, [7], [8], 9, 4, 2, 0, 0, 0, 115⟩ 1 2 9 (by decide),
    h.2.2.2 (by decide) (by decide) (by decide) (by decide) (by decide)
      (by decide)⟩

/-- C3: a structurally valid submission fails with RateLimited exactly when
`now - lastSentAt[sender] < minInterval`; at `minInterval` or beyond the
rate-limit check passes (it never reports RateLimited), and with the other
checks also passing the boundary submission is accepted. -/
theorem rate_limit_boundary (env : Env) (s : ContractState)
    (sender recipient : Nat) (contentCID keyCID : List Nat)
    (sha256Hash iv nonce sigV sigR sigS nowTs : Nat)
    (hrec : recipient ≠ 0) (hsha : sha256Hash ≠ 0) (hiv : iv ≠ 0)
    (hts : s.lastSentAt sender ≤ nowTs) :
    (nowTs - s.lastSentAt sender < s.minIntervalSeconds →
      sendMessage env s sender recipient contentCID keyCID sha256Hash iv
        nonce sigV sigR sigS nowTs = .error .rateLimited) ∧
    (s.minIntervalSeconds ≤ nowTs - s.lastSentAt sender →
      sendMessage env s sender recipient contentCID keyCID sha256Hash iv
        nonce sigV sigR sigS nowTs ≠ .error .rateLimited) ∧
    (s.minIntervalSeconds ≤ nowTs - s.lastSentAt sender →
      s.usedIV sender recipient iv = false →
      nonce = s.lastNonce sender + 1 → sigV = 0 → sigR = 0 → sigS = 0 →
      isOkB (sendMessage env s sender recipient contentCID keyCID sha256Hash
        iv nonce sigV sigR sigS nowTs) = true) := by
  have h4 : ¬(nowTs < s.lastSentAt sender) := Nat.not_lt.mpr hts
  refine ⟨?_, ?_, ?_⟩
  · intro hlt
    simp [sendMessage, hrec, hsha, hiv, h4, hlt]
  · intro hge
    have h5 : ¬(nowTs - s.lastSentAt sender < s.minIntervalSeconds) :=
      Nat.not_lt.mpr hge
    simp only [sendMessage, hrec, hsha, hiv, h4, h5]
    split_ifs <;> simp
  · intro hge hfresh hnon hv hr hsg
    subst hv hr hsg hnon
    have h5 : ¬(nowTs - s.lastSentAt sender < s.minIntervalSeconds) :=
      Nat.not_lt.mpr hge
    simp [sendMessage, hrec, hsha, hiv, h4, h5, hfresh, isOkB]

/-- C3 witness: on the fresh contract (minInterval 10, lastSentAt 0) a
submission at the exact boundary `now - lastSentAt = 10` is accepted, and
one at `now - lastSentAt = 5` fails RateLimited. -/
theorem rate_limit_boundary_witness :
    isOkB (sendMessage testEnv initialState 1 2 [7] [8] 9 9 1 0 0 0 10)
      = true ∧
    sendMessage testEnv initialState 1 2 [7] [8] 9 9 1 0 0 0 5
      = .error .rateLimited := by
  have hb := rate_limit_boundary testEnv initialState 1 2 [7] [8] 9 9 1 0 0 0
    10 (by decide) (by decide) (by decide) (by decide)
  have hr := rate_limit_boundary testEnv initialState 1 2 [7] [8] 9 9 1 0 0 0
    5 (by decide) (by decide) (by decide) (by decide)
  exact ⟨hb.2.2 (by decide) (by decide) (by decide) rfl rfl rfl,
    hr.1 (by decide)⟩

/-- C4: a `sendMessage` transaction that fails with any failure kind leaves
every piece of contract storage exactly as it was — the rate-limit
timestamp, the nonce counter, the usedIV marking, the message arena,
nextMessageId, both indices and the key registry — and allocates no id and
emits nothing. -/
theorem submit_atomic_on_failure (env : Env) (s : ContractState)
    (sender recipient : Nat) (contentCID keyCID : List Nat)
    (sha256Hash iv nonce sigV sigR sigS nowTs : Nat) (e : SendError)
    (h : sendMessage env s sender recipient contentCID keyCID sha256Hash iv
      nonce sigV sigR sigS nowTs = .error e) :
    (sendMessageTx env s sender recipient contentCID keyCID sha256Hash iv
        nonce sigV sigR sigS nowTs).1.lastSentAt = s.lastSentAt ∧
    (sendMessageTx env s sender recipient contentCID keyCID sha256Hash iv
        nonce sigV sigR sigS nowTs).1.lastNonce = s.lastNonce ∧
    (sendMessageTx env s sender recipient contentCID keyCID sha256Hash iv
        nonce sigV sigR sigS nowTs).1.usedIV = s.usedIV ∧
    (sendMessageTx env s sender recipient contentCID keyCID sha256Hash iv
        nonce sigV sigR sigS nowTs).1.messages = s.messages ∧
    (sendMessageTx env s sender recipient contentCID keyCID sha256Hash iv
        nonce sigV sigR sigS nowTs).1.nextMessageId = s.nextMessageId ∧
    (sendMessageTx env s sender recipient contentCID keyCID sha256Hash iv
        nonce sigV sigR sigS nowTs).1.inboxIndex = s.inboxIndex ∧
    (sendMessageTx env s sender recipient contentCID keyCID sha256Hash iv
        nonce sigV sigR sigS nowTs).1.outboxIndex = s.outboxIndex ∧
    (sendMessageTx env s sender recipient contentCID keyCID sha256Hash iv
        nonce sigV sigR sigS nowTs).1.minIntervalSeconds
      = s.minIntervalSeconds ∧
    (sendMessageTx env s sender recipient contentCID keyCID sha256Hash iv
        nonce sigV sigR sigS nowTs).1.keyRegistry = s.keyRegistry ∧
    (sendMessageTx env s sender recipient contentCID keyCID sha256Hash iv
        nonce sigV sigR sigS nowTs).2.1 = none ∧
    (sendMessageTx env s sender recipient contentCID keyCID sha256Hash iv
        nonce sigV sigR sigS nowTs).2.2 = [] := by
  simp [sendMessageTx, h]

/-- C4 witness: a concrete failing submission (zero recipient) leaves the
fresh contract's storage untouched. -/
theorem submit_atomic_on_failure_witness :
    (sendMessageTx testEnv initialState 1 0 [7] [8] 9 9 1 0 0 0 50).1.lastNonce
      = initialState.lastNonce ∧
    (sendMessageTx testEnv initialState 1 0 [7] [8] 9 9 1 0 0 0
      50).1.nextMessageId = initialState.nextMessageId ∧
    (sendMessageTx testEnv initialState 1 0 [7] [8] 9 9 1 0 0 0 50).2.1
      = none := by
  have h := submit_atomic_on_failure testEnv initialState 1 0 [7] [8] 9 9 1
    0 0 0 50 .invalidInput rfl
  exact ⟨h.2.1, h.2.2.2.2.1, h.2.2.2.2.2.2.2.2.2.1⟩

/-- C5: with every pre-signature check passing, an all-zero (v, r, s)
submission is accepted with no signature verification at all; if any
component is non-zero the outcome is decided by recovering the signer of
the EIP-191 envelope of the canonical commitment — recovered ≠ sender
fails with BadSignature (in particular any signature by another identity),
recovered = sender is accepted. -/
theorem signature_mode_dichotomy (env : Env) (s : ContractState)
    (sender recipient : Nat) (contentCID keyCID : List Nat)
    (sha256Hash iv nonce sigV sigR sigS nowTs : Nat)
    (hrec : recipient ≠ 0) (hsha : sha256Hash ≠ 0) (hiv : iv ≠ 0)
    (hts : s.lastSentAt sender ≤ nowTs)
    (hrate : s.minIntervalSeconds ≤ nowTs - s.lastSentAt sender)
    (hfresh : s.usedIV sender recipient iv = false)
    (hnon : nonce = s.lastNonce sender + 1) :
    (sigV = 0 ∧ sigR = 0 ∧ sigS = 0 →
      isOkB (sendMessage env s sender recipient contentCID keyCID sha256Hash
        iv nonce sigV sigR sigS nowTs) = true) ∧
    (¬(sigV = 0 ∧ sigR = 0 ∧ sigS = 0) →
      (env.ecrecover (ethMsgHash env (env.keccak (commitData sender recipient
          nowTs sha256Hash iv (env.keccak contentCID) (env.keccak keyCID)
          nonce))) sigV sigR sigS ≠ sender →
        sendMessage env s sender recipient contentCID keyCID sha256Hash iv
          nonce sigV sigR sigS nowTs = .error .badSignature) ∧
      (env.ecrecover (ethMsgHash env (env.keccak (commitData sender recipient
          nowTs sha256Hash iv (env.keccak contentCID) (env.keccak keyCID)
          nonce))) sigV sigR sigS = sender →
        isOkB (sendMessage env s sender recipient contentCID keyCID
          sha256Hash iv nonce sigV sigR sigS nowTs) = true)) := by
  have h4 : ¬(nowTs < s.lastSentAt sender) := Nat.not_lt.mpr hts
  have h5 : ¬(nowTs - s.lastSentAt sender < s.minIntervalSeconds) :=
    Nat.not_lt.mpr hrate
  subst hnon
  refine ⟨?_, ?_⟩
  · rintro ⟨hv, hr, hsg⟩
    subst hv hr hsg
    simp [sendMessage, hrec, hsha, hiv, h4, h5, hfresh, isOkB]
  · intro hnz
    have hc : sigV ≠ 0 ∨ sigR ≠ 0 ∨ sigS ≠ 0 := by tauto
    constructor
    · intro hbad
      simp [sendMessage, hrec, hsha, hiv, h4, h5, hfresh, hc, hbad]
    · intro hgood
      simp [sendMessage, hrec, hsha, hiv, h4, h5, hfresh, hc, hgood, isOkB]

/-- C5 witness: on the fresh contract, the all-zero submission is accepted,
and a non-zero signature whose recovered signer (address 0 under `testEnv`)
differs from the sender yields BadSignature. -/
theorem signature_mode_dichotomy_witness :
    isOkB (sendMessage testEnv initialState 1 2 [7] [8] 9 9 1 0 0 0 50)
      = true ∧
    sendMessage testEnv initialState 1 2 [7] [8] 9 9 1 27 3 4 50
      = .error .badSignature := by
  have h0 := signature_mode_dichotomy testEnv initialState 1 2 [7] [8] 9 9 1
    0 0 0 50 (by decide) (by decide) (by decide) (by decide) (by decide)
    (by decide) (by decide)
  have h1 := signature_mode_dichotomy testEnv initialState 1 2 [7] [8] 9 9 1
    27 3 4 50 (by decide) (by decide) (by decide) (by decide) (by decide)
    (by decide) (by decide)
  exact ⟨h0.1 ⟨rfl, rfl, rfl⟩, (h1.2 (by simp)).1 (by decide)⟩

/-- C6 counterexample to the claim as stated: the orchestrator's on-chain
call passes the raw content locator itself as the contentCID argument, and
that argument is not the 32-byte hash commitment the spec says the
orchestrator computes and submits. -/
theorem locator_commitment_claim_counterexample :
    (onSendLedgerCall initialState 1 2 [99, 100] [101] 9 9).2.1 = [99, 100] ∧
    [99, 100] ≠ specCommitmentArg testEnv [99, 100] := by
  exact ⟨rfl, by decide⟩

/-- C6 amended: the ledger's storage holds only the keccak256 commitments of
the locators — the stored MessageMeta carries `contentCidHash` and
`keyCidHash` computed by the contract, and the outcome of `sendMessage`
depends on the locator strings only through their hashes — but the
`sendMessage` call itself receives the raw locator strings (the
orchestrator passes them unhashed, together with `lastNonce + 1` and a
zero signature). -/
theorem ledger_stores_only_commitments (env : Env) (s : ContractState)
    (sender recipient : Nat) (cA cB kA kB : List Nat)
    (sha256Hash iv nonce sigV sigR sigS nowTs : Nat)
    (hc : env.keccak cA = env.keccak cB) (hk : env.keccak kA = env.keccak kB) :
    sendMessage env s sender recipient cA kA sha256Hash iv nonce sigV sigR
        sigS nowTs
      = sendMessage env s sender recipient cB kB sha256Hash iv nonce sigV
        sigR sigS nowTs ∧
    (∀ s' id evs, sendMessage env s sender recipient cA kA sha256Hash iv
        nonce sigV sigR sigS nowTs = .ok (s', id, evs) →
      s'.messages id = some ⟨id, sender, recipient, nowTs, sha256Hash, iv,
        env.keccak cA, env.keccak kA, nonce, sigR, sigS, sigV⟩) ∧
    (onSendLedgerCall s sender recipient cA kA sha256Hash iv).2.1 = cA ∧
    (onSendLedgerCall s sender recipient cA kA sha256Hash iv).2.2.1 = kA ∧
    onSendSubmit env s sender recipient cA kA sha256Hash iv nowTs
      = sendMessage env s sender recipient cA kA sha256Hash iv
        (s.lastNonce sender + 1) 0 0 0 nowTs := by
  refine ⟨?_, ?_, rfl, rfl, rfl⟩
  · simp only [sendMessage, hc, hk]
  · intro s' id evs hok
    obtain ⟨hid, _, _, hmsg, _⟩ := sendMessage_ok_shape hok
    rw [hmsg, upd_same]

/-- C6 witness: two different raw content locators with the same hash under
a collision environment produce identical ledger outcomes, and a concrete
successful send stores exactly the keccak commitments of its locators. -/
theorem ledger_stores_only_commitments_witness :
    sendMessage collisionEnv initialState 1 2 [55] [66] 9 9 1 0 0 0 50
      = sendMessage collisionEnv initialState 1 2 [56] [67] 9 9 1 0 0 0 50 ∧
    (sendMessageTx collisionEnv initialState 1 2 [55] [66] 9 9 1 0 0 0
        50).1.messages 1
      = some ⟨1, 1, 2, 50, 9, 9, collisionEnv.keccak [55],
          collisionEnv.keccak [66], 1, 0, 0, 0⟩ := by
  have h := ledger_stores_only_commitments collisionEnv initialState 1 2
    [55] [56] [66] [67] 9 9 1 0 0 0 50 (by decide) (by decide)
  refine ⟨h.1, ?_⟩
  have hok : sendMessage collisionEnv initialState 1 2 [55] [66] 9 9 1 0 0 0
      50 = .ok ((sendMessageTx collisionEnv initialState 1 2 [55] [66] 9 9 1
        0 0 0 50).1, 1, [Event.messageSent 1 1 2 50 9 9 1 1 1]) := rfl
  exact h.2.1 _ 1 _ hok

/-- If the try block of `tryDecrypt` returns an item carrying fresh
plaintext, then the content envelope was fetched and its recomputed digest
equals the item's on-chain digest. -/
theorem tryDecryptBody_ok_plaintext (env : InboxEnv) (it : Item)
    (cCID kCID jwk : List Nat) (r : Item) (p : List Nat)
    (h : tryDecryptBody env it cCID kCID jwk = .ok r)
    (hnone : it.plaintext = none) (hp : r.plaintext = some p) :
    ∃ cdoc, env.ipfsGet cCID = .ok cdoc ∧
      env.sha256Bytes cdoc.ciphertext = it.sha256Hash := by
  simp only [tryDecryptBody] at h
  cases h1 : env.importPriv jwk with
  | error e => simp [h1] at h
  | ok priv =>
    simp only [h1] at h
    cases h2 : env.ipfsGet kCID with
    | error e => simp [h2] at h
    | ok kdoc =>
      simp only [h2] at h
      cases h3 : kdoc.encryptedKey with
      | none =>
        simp only [h3] at h
        injection h with h
        subst h
        simp [hnone] at hp
      | some encKey =>
        simp only [h3] at h
        cases h4 : env.rsaOaepDecrypt priv encKey with
        | error e => simp [h4] at h
        | ok rawKey =>
          simp only [h4] at h
          cases h5 : env.ipfsGet cCID with
          | error e => simp [h5] at h
          | ok cdoc =>
            simp only [h5] at h
            by_cases h6 : env.sha256Bytes cdoc.ciphertext ≠ it.sha256Hash
            · rw [if_pos h6] at h
              injection h with h
              subst h
              simp [hnone] at hp
            · exact ⟨cdoc, rfl, not_not.mp h6⟩

/-- C7: the decrypt path never exposes plaintext for a ciphertext whose
digest disagrees with the ledger commitment — when every step up to the
digest comparison succeeds and the recomputed digest differs from the
item's on-chain digest, `tryDecrypt` attaches the integrity-mismatch note
and leaves the plaintext untouched; and whenever `tryDecrypt` does return
plaintext, the recomputed digest of the fetched ciphertext equals the
committed digest. -/
theorem integrity_checked_before_plaintext (env : InboxEnv) (it : Item) :
    (∀ cCID kCID jwk priv kdoc encKey rawKey cdoc,
      env.msgmap it.id = some (cCID, kCID) →
      env.privJwk = some jwk →
      env.importPriv jwk = .ok priv →
      env.ipfsGet kCID = .ok kdoc →
      kdoc.encryptedKey = some encKey →
      env.rsaOaepDecrypt priv encKey = .ok rawKey →
      env.ipfsGet cCID = .ok cdoc →
      env.sha256Bytes cdoc.ciphertext ≠ it.sha256Hash →
      (tryDecrypt env it).note = some .integrityMismatch ∧
      (tryDecrypt env it).plaintext = it.plaintext) ∧
    (∀ p, it.plaintext = none → (tryDecrypt env it).plaintext = some p →
      ∃ cCID kCID cdoc, env.msgmap it.id = some (cCID, kCID) ∧
        env.ipfsGet cCID = .ok cdoc ∧
        env.sha256Bytes cdoc.ciphertext = it.sha256Hash) := by
  constructor
  · intro cCID kCID jwk priv kdoc encKey rawKey cdoc h1 h2 h3 h4 h5 h6 h7 h8
    constructor
    · simp [tryDecrypt, tryDecryptBody, h1, h2, h3, h4, h5, h6, h7, h8]
    · simp [tryDecrypt, tryDecryptBody, h1, h2, h3, h4, h5, h6, h7, h8]
  · intro p hnone hp
    simp only [tryDecrypt] at hp
    cases hm : env.msgmap it.id with
    | none => simp [hm, hnone] at hp
    | some pr =>
      rcases pr with ⟨cCID, kCID⟩
      simp only [hm] at hp
      cases hj : env.privJwk with
      | none => simp [hj, hnone] at hp
      | some jwk =>
        simp only [hj] at hp
        cases hb : tryDecryptBody env
            { it with contentCID := cCID, keyCID := kCID } cCID kCID jwk with
        | error e =>
          simp only [hb] at hp
          simp [hnone] at hp
        | ok r =>
          simp only [hb] at hp
          obtain ⟨cdoc, hget, hsha⟩ := tryDecryptBody_ok_plaintext env
            { it with contentCID := cCID, keyCID := kCID } cCID kCID jwk r p
            hb hnone hp
          exact ⟨cCID, kCID, cdoc, rfl, hget, hsha⟩

/-- C7 witness: in the concrete environment, the tampered item (digest 99
against ciphertext digest 8) gets the integrity-mismatch note and no
plaintext, while the matching item's returned plaintext implies digest
agreement. -/
theorem integrity_checked_before_plaintext_witness :
    (tryDecrypt testInboxEnv tamperedItem).note
      = some DNote.integrityMismatch ∧
    (tryDecrypt testInboxEnv tamperedItem).plaintext = none := by
  have h := (integrity_checked_before_plaintext testInboxEnv tamperedItem).1
    [3] [4] [5] 7 ⟨some [6], [1], [8]⟩ [6] [9] ⟨none, [1], [8]⟩
    rfl rfl rfl rfl rfl rfl rfl (by decide)
  exact ⟨h.1, h.2⟩

/-- C8 counterexample to the claim as stated: `registerRSAPublicKey` does
not reject an all-zero digest — a registration with digest 0 goes through,
overwriting the caller's KeyRecord and emitting KeyRegistered. -/
theorem register_key_validation_counterexample :
    (registerRSAPublicKey initialState 5 0 [1, 2] 42).1.keyRegistry 5
      = ⟨0, [1, 2], 42⟩ ∧
    (registerRSAPublicKey initialState 5 0 [1, 2] 42).2
      = [Event.keyRegistered 5 0 [1, 2] 42] := by
  exact ⟨rfl, rfl⟩

/-- C8 amended: `registerRSAPublicKey` performs no validation at all (even a
zero digest is accepted); on every call it unconditionally replaces the
caller's entire KeyRecord with the supplied digest, locator and the
acceptance time, emits KeyRegistered with exactly those fields, and leaves
every other identity's record and all other storage untouched. -/
theorem register_key_unconditional_overwrite (s : ContractState)
    (caller digest : Nat) (uri : List Nat) (nowTs : Nat) :
    (registerRSAPublicKey s caller digest uri nowTs).1.keyRegistry caller
      = ⟨digest, uri, nowTs⟩ ∧
    (registerRSAPublicKey s caller digest uri nowTs).2
      = [Event.keyRegistered caller digest uri nowTs] ∧
    (∀ other, other ≠ caller →
      (registerRSAPublicKey s caller digest uri nowTs).1.keyRegistry other
        = s.keyRegistry other) ∧
    (registerRSAPublicKey s caller digest uri nowTs).1.nextMessageId
      = s.nextMessageId ∧
    (registerRSAPublicKey s caller digest uri nowTs).1.messages
      = s.messages ∧
    (registerRSAPublicKey s caller digest uri nowTs).1.inboxIndex
      = s.inboxIndex ∧
    (registerRSAPublicKey s caller digest uri nowTs).1.outboxIndex
      = s.outboxIndex ∧
    (registerRSAPublicKey s caller digest uri nowTs).1.lastNonce
      = s.lastNonce ∧
    (registerRSAPublicKey s caller digest uri nowTs).1.minIntervalSeconds
      = s.minIntervalSeconds ∧
    (registerRSAPublicKey s caller digest uri nowTs).1.lastSentAt
      = s.lastSentAt ∧
    (registerRSAPublicKey s caller digest uri nowTs).1.usedIV
      = s.usedIV := by
  refine ⟨upd_same _ _ _, rfl, ?_, rfl, rfl, rfl, rfl, rfl, rfl, rfl, rfl⟩
  intro other ho
  exact upd_other _ _ _ ho

/-- C8 witness: on the fresh contract, a zero-digest registration by caller
5 installs the record, and caller 4's record is unaffected. -/
theorem register_key_unconditional_overwrite_witness :
    (registerRSAPublicKey initialState 5 0 [3] 42).1.keyRegistry 5
      = ⟨0, [3], 42⟩ ∧
    (registerRSAPublicKey initialState 5 0 [3] 42).1.keyRegistry 4
      = initialState.keyRegistry 4 := by
  have h := register_key_unconditional_overwrite initialState 5 0 [3] 42
  exact ⟨h.1, h.2.2.1 4 (by decide)⟩

/-- C9: receive is partial-failure tolerant — the inbox loop processes
every entry through the total function `tryDecrypt` (so no entry's failure
aborts or skips another), and each failure mode (unknown locators, missing
private key, key-envelope fetch failure, absent wrapped key, unwrap
failure, content-envelope fetch failure, integrity mismatch, AEAD failure)
leaves the entry with an explanatory note and no plaintext. -/
theorem receive_partial_failure_tolerant (env : InboxEnv)
    (items : List Item) (it : Item) (cCID kCID jwk : List Nat) (priv : Nat)
    (kdoc cdoc : IpfsDoc) (encKey rawKey : List Nat)
    (hnone : it.plaintext = none) :
    (processInbox env items).length = items.length ∧
    (∀ i : Nat, (processInbox env items)[i]?
      = (items[i]?).map (tryDecrypt env)) ∧
    (env.msgmap it.id = none →
      (tryDecrypt env it).note = some .cidsUnknown ∧
      (tryDecrypt env it).plaintext = none) ∧
    (env.msgmap it.id = some (cCID, kCID) →
      (env.privJwk = none →
        (tryDecrypt env it).note = some .privKeyMissing ∧
        (tryDecrypt env it).plaintext = none) ∧
      (env.privJwk = some jwk →
        (∀ e, env.importPriv jwk = .error e →
          (tryDecrypt env it).note = some (.caught e) ∧
          (tryDecrypt env it).plaintext = none) ∧
        (env.importPriv jwk = .ok priv →
          (∀ e, env.ipfsGet kCID = .error e →
            (tryDecrypt env it).note = some (.caught e) ∧
            (tryDecrypt env it).plaintext = none) ∧
          (env.ipfsGet kCID = .ok kdoc →
            (kdoc.encryptedKey = none →
              (tryDecrypt env it).note = some .noEncryptedKey ∧
              (tryDecrypt env it).plaintext = none) ∧
            (kdoc.encryptedKey = some encKey →
              (∀ e, env.rsaOaepDecrypt priv encKey = .error e →
                (tryDecrypt env it).note = some (.caught e) ∧
                (tryDecrypt env it).plaintext = none) ∧
              (env.rsaOaepDecrypt priv encKey = .ok rawKey →
                (∀ e, env.ipfsGet cCID = .error e →
                  (tryDecrypt env it).note = some (.caught e) ∧
                  (tryDecrypt env it).plaintext = none) ∧
                (env.ipfsGet cCID = .ok cdoc →
                  (env.sha256Bytes cdoc.ciphertext ≠ it.sha256Hash →
                    (tryDecrypt env it).note = some .integrityMismatch ∧
                    (tryDecrypt env it).plaintext = none) ∧
                  (∀ e, env.sha256Bytes cdoc.ciphertext = it.sha256Hash →
                    env.aesDecrypt cdoc.ciphertext (env.aesImportRaw rawKey)
                      cdoc.docIV = .error e →
                    (tryDecrypt env it).note = some (.caught e) ∧
                    (tryDecrypt env it).plaintext = none)))))))) := by
  refine ⟨by simp [processInbox], by intro i; simp [processInbox], ?_, ?_⟩
  · intro hm
    constructor
    · simp [tryDecrypt, hm]
    · simp [tryDecrypt, hm, hnone]
  · intro hm
    refine ⟨?_, ?_⟩
    · intro hj
      constructor
      · simp [tryDecrypt, hm, hj]
      · simp [tryDecrypt, hm, hj, hnone]
    · intro hj
      refine ⟨?_, ?_⟩
      · intro e he
        constructor
        · simp [tryDecrypt, tryDecryptBody, hm, hj, he]
        · simp [tryDecrypt, tryDecryptBody, hm, hj, he, hnone]
      · intro hpriv
        refine ⟨?_, ?_⟩
        · intro e he
          constructor
          · simp [tryDecrypt, tryDecryptBody, hm, hj, hpriv, he]
          · simp [tryDecrypt, tryDecryptBody, hm, hj, hpriv, he, hnone]
        · intro hk
          refine ⟨?_, ?_⟩
          · intro hek
            constructor
            · simp [tryDecrypt, tryDecryptBody, hm, hj, hpriv, hk, hek]
            · simp [tryDecrypt, tryDecryptBody, hm, hj, hpriv, hk, hek,
                hnone]
          · intro hek
            refine ⟨?_, ?_⟩
            · intro e he
              constructor
              · simp [tryDecrypt, tryDecryptBody, hm, hj, hpriv, hk, hek, he]
              · simp [tryDecrypt, tryDecryptBody, hm, hj, hpriv, hk, hek, he,
                  hnone]
            · intro hraw
              refine ⟨?_, ?_⟩
              · intro e he
                constructor
                · simp [tryDecrypt, tryDecryptBody, hm, hj, hpriv, hk, hek,
                    hraw, he]
                · simp [tryDecrypt, tryDecryptBody, hm, hj, hpriv, hk, hek,
                    hraw, he, hnone]
              · intro hc
                refine ⟨?_, ?_⟩
                · intro hne
                  constructor
                  · simp [tryDecrypt, tryDecryptBody, hm, hj, hpriv, hk, hek,
                      hraw, hc, hne]
                  · simp [tryDecrypt, tryDecryptBody, hm, hj, hpriv, hk, hek,
                      hraw, hc, hne, hnone]
                · intro e heq hae
                  constructor
                  · simp [tryDecrypt, tryDecryptBody, hm, hj, hpriv, hk, hek,
                      hraw, hc, heq, hae]
                  · simp [tryDecrypt, tryDecryptBody, hm, hj, hpriv, hk, hek,
                      hraw, hc, heq, hae, hnone]

/-- C9 witness: with the concrete environment, an entry with no correlation
record is annotated and yields no plaintext, while the rest of the inbox is
still processed (the enriched list keeps one entry per input entry). -/
theorem receive_partial_failure_tolerant_witness :
    (processInbox testInboxEnv [unknownItem, goodItem]).length = 2 ∧
    (tryDecrypt testInboxEnv unknownItem).note = some DNote.cidsUnknown ∧
    (tryDecrypt testInboxEnv unknownItem).plaintext = none := by
  have h := receive_partial_failure_tolerant testInboxEnv
    [unknownItem, goodItem] unknownItem [] [] [] 0 ⟨none, [], []⟩
    ⟨none, [], []⟩ [] [] rfl
  exact ⟨h.1, (h.2.2.1 rfl).1, (h.2.2.1 rfl).2⟩

/-- C10: `setMinInterval` is callable by anyone (the outcome is independent
of the caller), performs no validation, sets only `minIntervalSeconds`,
emits MinIntervalUpdated — and every subsequent submission is rate-limited
against the new value: at or beyond the new interval the rate-limit check
never fires (with value 0 this holds for every submission time), while
strictly inside the new interval a structurally valid submission fails
RateLimited. -/
theorem set_min_interval_unconditional (env : Env) (s : ContractState)
    (caller caller2 newValue : Nat) :
    (setMinInterval s caller newValue).1.minIntervalSeconds = newValue ∧
    setMinInterval s caller newValue = setMinInterval s caller2 newValue ∧
    (setMinInterval s caller newValue).2
      = [Event.minIntervalUpdated newValue] ∧
    (setMinInterval s caller newValue).1.lastSentAt = s.lastSentAt ∧
    (setMinInterval s caller newValue).1.lastNonce = s.lastNonce ∧
    (setMinInterval s caller newValue).1.usedIV = s.usedIV ∧
    (setMinInterval s caller newValue).1.messages = s.messages ∧
    (∀ sender recipient contentCID keyCID sha256Hash iv nonce sigV sigR sigS
        nowTs, recipient ≠ 0 → sha256Hash ≠ 0 → iv ≠ 0 →
      s.lastSentAt sender ≤ nowTs →
      (newValue ≤ nowTs - s.lastSentAt sender →
        sendMessage env (setMinInterval s caller newValue).1 sender recipient
          contentCID keyCID sha256Hash iv nonce sigV sigR sigS nowTs
          ≠ .error .rateLimited) ∧
      (nowTs - s.lastSentAt sender < newValue →
        sendMessage env (setMinInterval s caller newValue).1 sender recipient
          contentCID keyCID sha256Hash iv nonce sigV sigR sigS nowTs
          = .error .rateLimited)) := by
  refine ⟨rfl, rfl, rfl, rfl, rfl, rfl, rfl, ?_⟩
  intro sender recipient contentCID keyCID sha256Hash iv nonce sigV sigR sigS
    nowTs hrec hsha hiv hts
  have h4 : ¬(nowTs < s.lastSentAt sender) := Nat.not_lt.mpr hts
  constructor
  · intro hge
    have h5 : ¬(nowTs - s.lastSentAt sender < newValue) := Nat.not_lt.mpr hge
    simp only [sendMessage, setMinInterval, hrec, hsha, hiv, h4, h5]
    split_ifs <;> simp
  · intro hlt
    simp [sendMessage, setMinInterval, hrec, hsha, hiv, h4, hlt]

/-- C10 witness: any caller (here address 9) may set the interval to 0 with
no authorization, and afterwards an immediate submission (now = lastSentAt
= 0) is no longer rate-limited. -/
theorem set_min_interval_unconditional_witness :
    (setMinInterval initialState 9 0).1.minIntervalSeconds = 0 ∧
    sendMessage testEnv (setMinInterval initialState 9 0).1 1 2 [7] [8] 9 9 1
      0 0 0 0 ≠ .error .rateLimited := by
  have h := set_min_interval_unconditional testEnv initialState 9 8 0
  exact ⟨h.1, (h.2.2.2.2.2.2.2 1 2 [7] [8] 9 9 1 0 0 0 0 (by decide)
    (by decide) (by decide) (by decide)).1 (by decide)⟩

end EncryptedMessaging
